import Mathlib

/-!
Verification of the health-service event pipeline.

Shallow embedding of:
  * `app/workers/fitbit_worker.py` — ParseStage, DedupeStage, the worker
    orchestrator's per-event processing, failure escalation and drain loop;
  * `app/services/event_bus.py` — the in-memory queue client
    (publish / publish_many / consume_batch) and the SQS batch clamping;
  * `app/services/fitbit_push.py` — verification-code checking.

Python dicts are modelled as association lists over scalar JSON-like
values; Python exceptions are modelled with `Except`; the external
Fetch-Details and Persist effects (network / file system) are modelled as
oracle functions that may fail arbitrarily, matching the way the worker
treats them (opaque stages that may raise).
-/

namespace HealthService

/-- Scalar Python values appearing in event payloads. -/
inductive PyVal where
  | vNone
  | vBool (b : Bool)
  | vInt (n : Int)
  | vStr (s : String)
deriving DecidableEq, Repr

/-- An event: a string-keyed mapping, as received from the provider. -/
abbrev Event := List (String × PyVal)

/-- First-match lookup in a mapping (Python `dict` access). -/
def lookupField : Event → String → Option PyVal
  | [], _ => none
  | (k, v) :: rest, key => if k = key then some v else lookupField rest key

/-- Embeds Python `event.get(key, default)`. -/
def pyGet (e : Event) (key : String) (dflt : PyVal) : PyVal :=
  (lookupField e key).getD dflt

/-- Embeds Python `dict` item assignment: replace the binding if present, append otherwise. -/
def setKey : Event → String → PyVal → Event
  | [], key, v => [(key, v)]
  | (k, w) :: rest, key, v =>
    if k = key then (k, v) :: rest else (k, w) :: setKey rest key v

/-- Embeds Python truthiness of a scalar value. -/
def truthy : PyVal → Bool
  | .vNone => false
  | .vBool b => b
  | .vInt n => n != 0
  | .vStr s => s != ""

/-- Embeds Python `str(...)` of a scalar value. -/
def pyStr : PyVal → String
  | .vNone => "None"
  | .vBool b => if b then "True" else "False"
  | .vInt n => toString n
  | .vStr s => s

/-- Python whitespace, as recognised by `str.strip()` and `int(str)`. -/
def pyIsSpace (c : Char) : Bool :=
  c == ' ' || c == '\t' || c == '\n' || c == '\r' || c == '\x0b' || c == '\x0c'

/-- Embeds Python `str.strip()` on the character list of a string. -/
def pyStrip (cs : List Char) : List Char :=
  ((cs.dropWhile pyIsSpace).reverse.dropWhile pyIsSpace).reverse

/-- Value of a non-empty run of decimal digits; `none` on any non-digit or on emptiness. -/
def digitsVal (cs : List Char) : Option Nat :=
  if cs.isEmpty then none
  else cs.foldlM (fun acc c => if c.isDigit then some (acc * 10 + (c.toNat - '0'.toNat)) else none) 0

/-- Embeds Python `int(s)` on a string: strip whitespace, optional sign, decimal digits;
raises (`none`) otherwise. -/
def pyIntOfString (s : String) : Option Int :=
  match pyStrip s.data with
  | '+' :: rest => (digitsVal rest).map Int.ofNat
  | '-' :: rest => (digitsVal rest).map (fun n => -(n : Int))
  | cs => (digitsVal cs).map Int.ofNat

/-- Embeds Python `int(v)`: `none` models a raised `ValueError`/`TypeError`. -/
def pyToInt : PyVal → Option Int
  | .vNone => none
  | .vBool b => some (if b then 1 else 0)
  | .vInt n => some n
  | .vStr s => pyIntOfString s

/-- The value of Python `event.get("retry_count", 0) or 0`. -/
def retryFieldExpr (e : Event) : PyVal :=
  let v := pyGet e "retry_count" (.vInt 0)
  if truthy v then v else .vInt 0

/-- Embeds `int(event.get("retry_count", 0) or 0)`; `none` models a raised conversion error. -/
def retryCountOf (e : Event) : Option Int :=
  pyToInt (retryFieldExpr e)

/-- Error text used for a failed `int()` conversion of `retry_count`. -/
def retryIntError : String := "ValueError: invalid literal for int() on retry_count"

/-- The Processing Context built by `ParseStage.run` and threaded through the stages. -/
structure Ctx where
  event : Event
  received_at : String
  retry_count : Int
  provider : String
  dedupe_key : Option String
  is_duplicate : Option Bool
deriving DecidableEq, Repr

/-- Embeds `ParseStage.run` (fitbit_worker.py lines 16-24): wraps the raw event into a
context, stamping `received_at`, extracting `retry_count` and tagging the
provider.  `nowIso` stands for `datetime.utcnow().isoformat()`.  The `int(...)`
conversion raises when the `retry_count` value is truthy but not numeric. -/
def parseStage (nowIso : String) (e : Event) : Except String Ctx :=
  match retryCountOf e with
  | none => .error retryIntError
  | some r =>
    .ok { event := e, received_at := nowIso ++ "Z", retry_count := r,
          provider := "fitbit", dedupe_key := none, is_duplicate := none }

/-- Embeds `"|".join(parts)` specialised to the dedupe separator. -/
def joinPipe : List String → String
  | [] => ""
  | [x] => x
  | x :: rest => x ++ "|" ++ joinPipe rest

/-- Embeds `DedupeStage._key` (fitbit_worker.py lines 31-39). -/
def dedupeKey (e : Event) : String :=
  joinPipe
    [ "fitbit"
    , pyStr (pyGet e "ownerId" (.vStr ""))
    , pyStr (pyGet e "subscriptionId" (.vStr ""))
    , pyStr (pyGet e "collectionType" (.vStr ""))
    , pyStr (pyGet e "date" (.vStr "")) ]

/-- Embeds `DedupeStage.run` (fitbit_worker.py lines 41-48): the process-local seen set
is modelled as a list of keys (membership is all that is used of it). -/
def dedupeRun (seen : List String) (ctx : Ctx) : Ctx × List String :=
  let key := dedupeKey ctx.event
  let isDup := decide (key ∈ seen)
  ({ ctx with dedupe_key := some key, is_duplicate := some isDup },
   if isDup then seen else key :: seen)

/-- The external Fetch-Details and Persist stages as opaque effects that may
raise arbitrarily (credentials, network, file system). -/
structure StageOracles where
  fetch : Ctx → Except String Ctx
  persist : Ctx → Except String Ctx

/-- What one `FitbitEventWorker._process_event` run did. -/
inductive Outcome where
  | parseError (err : String)
  | duplicateSkipped (key : String)
  | fetchError (err : String)
  | persistError (err : String)
  | processed (key : String)
deriving DecidableEq, Repr

/-- The error text a raised outcome propagates to the orchestrator's
per-event `except` handler; `none` when nothing was raised. -/
def Outcome.errText : Outcome → Option String
  | .parseError err => some err
  | .fetchError err => some err
  | .persistError err => some err
  | .duplicateSkipped _ => none
  | .processed _ => none

/-- Embeds `FitbitEventWorker._process_event` (fitbit_worker.py lines 156-166): parse,
dedupe, early-return on duplicates, then fetch and persist.  Returns the
outcome together with the seen set after the run. -/
def processEvent (os : StageOracles) (nowIso : String) (seen : List String) (e : Event) :
    Outcome × List String :=
  match parseStage nowIso e with
  | .error err => (.parseError err, seen)
  | .ok ctx =>
    let p := dedupeRun seen ctx
    if p.1.is_duplicate = some true then (.duplicateSkipped (dedupeKey e), p.2)
    else
      match os.fetch p.1 with
      | .error err => (.fetchError err, p.2)
      | .ok ctx2 =>
        match os.persist ctx2 with
        | .error err => (.persistError err, p.2)
        | .ok _ => (.processed (dedupeKey e), p.2)

/-- Embeds `FitbitEventWorker._handle_failure` (fitbit_worker.py lines 168-184): read
the failing event's `retry_count` (itself an `int(...)` that can raise, modelled
by the `.error` case), build the updated copy with the incremented count and
`last_error`, and route it to the retry topic when the old count is below
`maxRetries`, to the dead-letter topic otherwise. -/
def handleFailure (maxRetries : Int) (retryTopic dlqTopic : String)
    (e : Event) (errText : String) : Except String (String × Event) :=
  match retryCountOf e with
  | none => .error retryIntError
  | some r =>
    let updated := setKey (setKey e "retry_count" (.vInt (r + 1))) "last_error" (.vStr errText)
    if r < maxRetries then .ok (retryTopic, updated)
    else .ok (dlqTopic, updated)

/-- An item appearing in a queue batch: a well-formed object (a dict) or not. -/
inductive Item where
  | obj (e : Event)
  | nonObj (v : PyVal)
deriving DecidableEq, Repr

/-- Embeds `isinstance(item, dict)`. -/
def Item.isObj : Item → Bool
  | .obj _ => true
  | .nonObj _ => false

/-- The events among a batch's well-formed objects, in order. -/
def objEvents (items : List Item) : List Event :=
  items.filterMap fun
    | .obj e => some e
    | .nonObj _ => none

/-- State accumulated by `FitbitEventWorker._drain_topic` over one batch:
the `processed` counter, the dedupe seen set, and the (topic, event) pairs
republished by failure escalation. -/
structure DrainAcc where
  processed : Nat
  seen : List String
  published : List (String × Event)
deriving DecidableEq, Repr

/-- One iteration of the `for event in events` loop in
`FitbitEventWorker._drain_topic` (fitbit_worker.py lines 207-214): skip
non-objects, run the pipeline inside `try`, convert a raised error into
retry/DLQ routing via `_handle_failure` — which may itself raise (the
`.error` case), escaping the loop. -/
def drainStep (os : StageOracles) (maxRetries : Int) (retryTopic dlqTopic nowIso : String)
    (acc : DrainAcc) (item : Item) : Except String DrainAcc :=
  match item with
  | .nonObj _ => .ok acc
  | .obj e =>
    let pr := processEvent os nowIso acc.seen e
    match pr.1.errText with
    | none => .ok { processed := acc.processed + 1, seen := pr.2, published := acc.published }
    | some err =>
      match handleFailure maxRetries retryTopic dlqTopic e err with
      | .error ex => .error ex
      | .ok te =>
        .ok { processed := acc.processed + 1, seen := pr.2, published := acc.published ++ [te] }

/-- The body of `FitbitEventWorker._drain_topic` after a successful consume:
fold the per-event step over the batch; an uncaught error aborts the loop. -/
def drainTopic (os : StageOracles) (maxRetries : Int) (retryTopic dlqTopic nowIso : String)
    (seen : List String) (items : List Item) : Except String DrainAcc :=
  items.foldlM (drainStep os maxRetries retryTopic dlqTopic nowIso)
    { processed := 0, seen := seen, published := [] }

/-- Whether an `Except` computation returned normally. -/
def exceptOk {ε α : Type} : Except ε α → Bool
  | .ok _ => true
  | .error _ => false

/-! ### In-memory queue client (`event_bus.py`, `InMemoryQueueClient`)

One topic's deque, front of the queue at the head of the list. -/

/-- Embeds `InMemoryQueueClient.publish` (event_bus.py lines 13-15): append to the deque. -/
def publish (q : List Event) (e : Event) : List Event := q ++ [e]

/-- Embeds `InMemoryQueueClient.publish_many` (event_bus.py lines 17-24): append each
well-formed object, count it; silently skip the rest.  Returns the count and
the deque after the call. -/
def publishStep (acc : Nat × List Event) (item : Item) : Nat × List Event :=
  match item with
  | .obj e => (acc.1 + 1, acc.2 ++ [e])
  | .nonObj _ => acc

def publishMany (q : List Event) (items : List Item) : Nat × List Event :=
  items.foldl publishStep (0, q)

/-- Embeds `InMemoryQueueClient.consume_batch` (event_bus.py lines 36-40):
`count = min(max_messages, len(queue))`, pop that many from the front
(`range` of a negative count is empty, hence `Int.toNat`).  Returns the
batch and the deque after the call. -/
def consumeBatch (q : List Event) (maxMessages : Int) : List Event × List Event :=
  let count := (min maxMessages (q.length : Int)).toNat
  (q.take count, q.drop count)

/-- Repeatedly `consume_batch` with batch size `b` until an empty batch:
the "full drain" of a topic, with fuel bounding the number of rounds. -/
def drainAllAux : Nat → List Event → Int → List Event
  | 0, _, _ => []
  | fuel + 1, q, b =>
    let p := consumeBatch q b
    if p.1 = [] then [] else p.1 ++ drainAllAux fuel p.2 b

/-- Full drain of a topic by repeated `consume_batch` calls of size `b`. -/
def drainAll (q : List Event) (b : Int) : List Event :=
  drainAllAux q.length q b

/-! ### SQS batch clamping (`event_bus.py`, `AwsSqsQueueClient.consume_batch`) -/

/-- The `(MaxNumberOfMessages, WaitTimeSeconds)` arguments the SQS
`receive_message` request is built with (event_bus.py lines 241-242):
`max(1, min(max_messages, 10))` and `max(0, min(wait_seconds, 20))`. -/
def sqsConsumeRequest (maxMessages waitSeconds : Int) : Int × Int :=
  (max 1 (min maxMessages 10), max 0 (min waitSeconds 20))

/-! ### Verification codes (`fitbit_push.py`, `FitbitPushService`) -/

/-- Embeds Python `s.split(",")`: split on every comma, keeping empty pieces. -/
def splitCommaAux : List Char → List Char → List String
  | [], acc => [String.mk acc.reverse]
  | c :: rest, acc =>
    if c = ',' then String.mk acc.reverse :: splitCommaAux rest []
    else splitCommaAux rest (c :: acc)

def splitComma (s : String) : List String :=
  splitCommaAux s.data []

/-- The configured set of accepted codes: split the raw environment value on
commas, strip each piece, keep the non-empty ones (fitbit_push.py line 13). -/
def parseVerifyCodes (raw : String) : List String :=
  ((splitComma raw).map (fun s => String.mk (pyStrip s.data))).filter (fun s => s != "")

/-- Embeds `FitbitPushService.is_valid_verification_code` (fitbit_push.py lines 11-14):
`bool(code and code in verify_codes)` — false for a missing or empty code,
otherwise membership in the configured set. -/
def isValidVerificationCode (raw : String) (code : Option String) : Bool :=
  let codes := parseVerifyCodes raw
  match code with
  | none => false
  | some c => if c = "" then false else codes.contains c

/-- An event carrying exactly the optional identity fields the dedupe key reads. -/
def optField (k : String) : Option String → Event
  | none => []
  | some s => [(k, PyVal.vStr s)]

def mkFitbitEvent (owner sub coll date : Option String) : Event :=
  optField "ownerId" owner ++ optField "subscriptionId" sub ++
  optField "collectionType" coll ++ optField "date" date

/-- Oracles whose Fetch Details and Persist stages always succeed. -/
def okOracles : StageOracles :=
  ⟨fun c => .ok c, fun c => .ok c⟩

/-- Oracles whose Fetch Details stage always raises. -/
def failFetchOracles : StageOracles :=
  ⟨fun _ => .error "boom", fun c => .ok c⟩

/-! ### Helper lemmas -/

theorem lookupField_setKey_self (e : Event) (k : String) (v : PyVal) :
    lookupField (setKey e k v) k = some v := by
  induction e with
  | nil => simp [setKey, lookupField]
  | cons kv rest ih =>
    obtain ⟨a, w⟩ := kv
    by_cases h : a = k
    · simp [setKey, lookupField, h]
    · simp [setKey, lookupField, h, ih]

theorem lookupField_setKey_ne (e : Event) (k k' : String) (v : PyVal) (h : k' ≠ k) :
    lookupField (setKey e k v) k' = lookupField e k' := by
  have hkk : ¬ k = k' := fun hh => h hh.symm
  induction e with
  | nil => simp [setKey, lookupField, hkk]
  | cons kv rest ih =>
    obtain ⟨a, w⟩ := kv
    by_cases ha : a = k
    · subst ha
      simp [setKey, lookupField, hkk]
    · by_cases ha' : a = k'
      · subst ha'
        simp [setKey, lookupField, ha]
      · simp [setKey, lookupField, ha, ha', ih]

theorem dedupeKey_setKey (e : Event) (k : String) (v : PyVal)
    (h1 : k ≠ "ownerId") (h2 : k ≠ "subscriptionId")
    (h3 : k ≠ "collectionType") (h4 : k ≠ "date") :
    dedupeKey (setKey e k v) = dedupeKey e := by
  unfold dedupeKey pyGet
  rw [lookupField_setKey_ne e k "ownerId" v (Ne.symm h1),
      lookupField_setKey_ne e k "subscriptionId" v (Ne.symm h2),
      lookupField_setKey_ne e k "collectionType" v (Ne.symm h3),
      lookupField_setKey_ne e k "date" v (Ne.symm h4)]

/-- The copy `_handle_failure` republishes keeps the event's dedupe key:
only `retry_count` and `last_error` are overwritten. -/
theorem handleFailure_dedupeKey (m : Int) (rT dT : String) (e : Event) (err t : String)
    (e' : Event) (h : handleFailure m rT dT e err = .ok (t, e')) :
    dedupeKey e' = dedupeKey e := by
  unfold handleFailure at h
  cases hr : retryCountOf e with
  | none => simp [hr] at h
  | some r =>
    rw [hr] at h
    simp only at h
    have he' : e' = setKey (setKey e "retry_count" (.vInt (r + 1))) "last_error" (.vStr err) := by
      by_cases hlt : r < m
      · simp [hlt] at h; exact h.2.symm
      · simp [hlt] at h; exact h.2.symm
    rw [he', dedupeKey_setKey, dedupeKey_setKey] <;> decide

/-- The republished copy always carries an `Int`-valued `retry_count`,
so its parse never raises. -/
theorem handleFailure_retryCount (m : Int) (rT dT : String) (e : Event) (err t : String)
    (e' : Event) (h : handleFailure m rT dT e err = .ok (t, e')) :
    ∃ r' : Int, retryCountOf e' = some r' := by
  unfold handleFailure at h
  cases hr : retryCountOf e with
  | none => simp [hr] at h
  | some r =>
    rw [hr] at h
    simp only at h
    have he' : e' = setKey (setKey e "retry_count" (.vInt (r + 1))) "last_error" (.vStr err) := by
      by_cases hlt : r < m
      · simp [hlt] at h; exact h.2.symm
      · simp [hlt] at h; exact h.2.symm
    have hl : lookupField e' "retry_count" = some (.vInt (r + 1)) := by
      rw [he', lookupField_setKey_ne _ _ _ _ (by decide), lookupField_setKey_self]
    unfold retryCountOf retryFieldExpr pyGet
    rw [hl]
    by_cases hz : truthy (.vInt (r + 1))
    · exact ⟨r + 1, by simp [hz, pyToInt]⟩
    · exact ⟨0, by simp [hz, pyToInt]⟩

/-- Processing an event with a parseable retry count whose key is already in
the seen set is pure duplicate suppression: no oracle is consulted, the seen
set is unchanged. -/
theorem processEvent_dup (os : StageOracles) (nowIso : String) (seen : List String)
    (e : Event) (r : Int) (hr : retryCountOf e = some r) (hmem : dedupeKey e ∈ seen) :
    processEvent os nowIso seen e = (.duplicateSkipped (dedupeKey e), seen) := by
  simp [processEvent, parseStage, hr, dedupeRun, hmem]

/-- Processing an event with a parseable retry count and an unseen key runs
the pipeline: the key is inserted, and the outcome is fetch failure, persist
failure or success — never duplicate suppression. -/
theorem processEvent_new (os : StageOracles) (nowIso : String) (seen : List String)
    (e : Event) (r : Int) (hr : retryCountOf e = some r) (hmem : dedupeKey e ∉ seen) :
    (∃ err, processEvent os nowIso seen e = (.fetchError err, dedupeKey e :: seen)) ∨
    (∃ err, processEvent os nowIso seen e = (.persistError err, dedupeKey e :: seen)) ∨
    processEvent os nowIso seen e = (.processed (dedupeKey e), dedupeKey e :: seen) := by
  simp only [processEvent, parseStage, hr, dedupeRun, hmem]
  simp only [decide_eq_true_eq, if_neg hmem, decide_False]
  split
  · next h => simp at h
  · split
    · next err heq => exact Or.inl ⟨err, rfl⟩
    · split
      · next err heq => exact Or.inr (Or.inl ⟨err, rfl⟩)
      · exact Or.inr (Or.inr rfl)

/-- A processing run never removes keys from the seen set. -/
theorem processEvent_seen_mono (os : StageOracles) (nowIso : String) (seen : List String)
    (e : Event) (k : String) (hk : k ∈ seen) :
    k ∈ (processEvent os nowIso seen e).2 := by
  cases hr : retryCountOf e with
  | none => simp [processEvent, parseStage, hr, hk]
  | some r =>
    by_cases hmem : dedupeKey e ∈ seen
    · rw [processEvent_dup os nowIso seen e r hr hmem]; exact hk
    · rcases processEvent_new os nowIso seen e r hr hmem with ⟨err, hpe⟩ | ⟨err, hpe⟩ | hpe <;>
        (rw [hpe]; exact List.mem_cons_of_mem _ hk)

/-- One drain-loop iteration never removes keys from the seen set. -/
theorem drainStep_seen_mono (os : StageOracles) (m : Int) (rT dT nowIso : String)
    (acc acc' : DrainAcc) (item : Item) (h : drainStep os m rT dT nowIso acc item = .ok acc')
    (k : String) (hk : k ∈ acc.seen) : k ∈ acc'.seen := by
  cases item with
  | nonObj v => simp [drainStep] at h; rw [← h]; exact hk
  | obj e =>
    simp only [drainStep] at h
    split at h
    · cases h; exact processEvent_seen_mono os nowIso acc.seen e k hk
    · split at h
      · cases h
      · cases h; exact processEvent_seen_mono os nowIso acc.seen e k hk

/-- Draining a batch never removes keys from the seen set. -/
theorem drainTopic_seen_mono (os : StageOracles) (m : Int) (rT dT nowIso : String)
    (items : List Item) :
    ∀ acc acc' : DrainAcc,
      items.foldlM (drainStep os m rT dT nowIso) acc = .ok acc' →
      ∀ k, k ∈ acc.seen → k ∈ acc'.seen := by
  induction items with
  | nil =>
    intro acc acc' h k hk
    rw [List.foldlM_nil] at h
    change Except.ok acc = Except.ok acc' at h
    rw [← Except.ok.inj h]; exact hk
  | cons item rest ih =>
    intro acc acc' h k hk
    rw [List.foldlM_cons] at h
    cases hstep : drainStep os m rT dT nowIso acc item with
    | error ex =>
      rw [hstep] at h
      change Except.error ex = Except.ok acc' at h
      cases h
    | ok acc1 =>
      rw [hstep] at h
      change rest.foldlM (drainStep os m rT dT nowIso) acc1 = Except.ok acc' at h
      exact ih acc1 acc' h k (drainStep_seen_mono os m rT dT nowIso acc acc1 item hstep k hk)

theorem objEvents_nil : objEvents [] = [] := rfl

theorem objEvents_cons_obj (e : Event) (rest : List Item) :
    objEvents (.obj e :: rest) = e :: objEvents rest := rfl

theorem objEvents_cons_nonObj (v : PyVal) (rest : List Item) :
    objEvents (.nonObj v :: rest) = objEvents rest := rfl

/-- Accumulator-generalised unfolding of `publish_many`'s loop. -/
theorem publishStep_foldl (items : List Item) :
    ∀ (n : Nat) (q : List Event),
      items.foldl publishStep (n, q) = (n + (objEvents items).length, q ++ objEvents items) := by
  induction items with
  | nil => intro n q; simp [objEvents_nil]
  | cons item rest ih =>
    intro n q
    cases item with
    | obj e =>
      rw [List.foldl_cons, show publishStep (n, q) (.obj e) = (n + 1, q ++ [e]) from rfl, ih,
          objEvents_cons_obj]
      simp only [Prod.mk.injEq, List.length_cons, List.append_assoc, List.singleton_append]
      exact ⟨by omega, trivial⟩
    | nonObj v =>
      rw [List.foldl_cons, show publishStep (n, q) (.nonObj v) = (n, q) from rfl, ih,
          objEvents_cons_nonObj]

/-- Closed form of `publish_many`: skipped non-objects, appended objects. -/
theorem publishMany_eq (q : List Event) (items : List Item) :
    publishMany q items = ((objEvents items).length, q ++ objEvents items) := by
  unfold publishMany
  rw [publishStep_foldl]
  simp

/-- With any positive batch size, repeated `consume_batch` calls return the
whole queue, front to back. -/
theorem drainAllAux_eq (b : Int) (hb : 1 ≤ b) :
    ∀ (fuel : Nat) (q : List Event), q.length ≤ fuel → drainAllAux fuel q b = q := by
  intro fuel
  induction fuel with
  | zero =>
    intro q hq
    have : q = [] := List.length_eq_zero.mp (Nat.le_zero.mp hq)
    simp [this, drainAllAux]
  | succ n ih =>
    intro q hq
    cases q with
    | nil => simp [drainAllAux, consumeBatch]
    | cons x xs =>
      have hone : (1 : Int) ≤ ((x :: xs).length : Int) := by
        rw [List.length_cons]; omega
      have hcpos : 1 ≤ (min b ((x :: xs).length : Int)).toNat := by omega
      have hcle : (min b ((x :: xs).length : Int)).toNat ≤ (x :: xs).length := by omega
      simp only [drainAllAux, consumeBatch]
      have htake : (x :: xs).take ((min b ((x :: xs).length : Int)).toNat) ≠ [] := by
        intro hcon
        rcases List.take_eq_nil_iff.mp hcon with h0 | h0
        · omega
        · exact List.cons_ne_nil x xs h0
      rw [if_neg htake]
      rw [ih (((x :: xs).drop ((min b ((x :: xs).length : Int)).toNat)))
            (by rw [List.length_drop]; omega)]
      exact List.take_append_drop _ _

/-- Full drain of an in-memory topic with positive batch size is the identity. -/
theorem drainAll_eq (q : List Event) (b : Int) (hb : 1 ≤ b) : drainAll q b = q :=
  drainAllAux_eq b hb q.length q le_rfl

/-- Closed form of `_handle_failure` when the retry count converts. -/
theorem handleFailure_eq (m : Int) (rT dT : String) (e : Event) (err : String)
    (r : Int) (hr : retryCountOf e = some r) :
    handleFailure m rT dT e err =
      .ok (if r < m then rT else dT,
           setKey (setKey e "retry_count" (.vInt (r + 1))) "last_error" (.vStr err)) := by
  by_cases h : r < m <;> simp [handleFailure, hr, h]

/-- A run that ends in a fetch or persist failure parsed successfully and left
the event's dedupe key in the seen set. -/
theorem processEvent_err_mem (os : StageOracles) (nowIso : String) (seen : List String)
    (e : Event) (out : Outcome) (seen1 : List String) (err : String)
    (hproc : processEvent os nowIso seen e = (out, seen1))
    (hfail : out = .fetchError err ∨ out = .persistError err) :
    dedupeKey e ∈ seen1 := by
  cases hr : retryCountOf e with
  | none =>
    have hpe : processEvent os nowIso seen e = (.parseError retryIntError, seen) := by
      simp [processEvent, parseStage, hr]
    rw [hpe] at hproc
    cases hproc
    rcases hfail with h | h <;> cases h
  | some r =>
    by_cases hmem : dedupeKey e ∈ seen
    · rw [processEvent_dup os nowIso seen e r hr hmem] at hproc
      cases hproc
      rcases hfail with h | h <;> cases h
    · rcases processEvent_new os nowIso seen e r hr hmem with ⟨err2, hp⟩ | ⟨err2, hp⟩ | hp <;>
        (rw [hp] at hproc; cases hproc; exact List.mem_cons_self _ _)

/-- A run that ends in a fetch or persist failure has a convertible retry count. -/
theorem processEvent_err_retry (os : StageOracles) (nowIso : String) (seen : List String)
    (e : Event) (out : Outcome) (seen1 : List String) (err : String)
    (hproc : processEvent os nowIso seen e = (out, seen1))
    (hfail : out = .fetchError err ∨ out = .persistError err) :
    ∃ r, retryCountOf e = some r := by
  cases hr : retryCountOf e with
  | none =>
    have hpe : processEvent os nowIso seen e = (.parseError retryIntError, seen) := by
      simp [processEvent, parseStage, hr]
    rw [hpe] at hproc
    cases hproc
    rcases hfail with h | h <;> cases h
  | some r => exact ⟨r, rfl⟩

/-- One drain-loop iteration returns normally whenever the event's retry
count is convertible (the only way `_handle_failure` itself can raise). -/
theorem drainStep_ok (os : StageOracles) (mR : Int) (rT dT nowIso : String)
    (acc : DrainAcc) (item : Item)
    (h : ∀ e, item = Item.obj e → (retryCountOf e).isSome = true) :
    ∃ acc1, drainStep os mR rT dT nowIso acc item = .ok acc1 := by
  cases item with
  | nonObj v => exact ⟨acc, rfl⟩
  | obj e =>
    obtain ⟨r, hr⟩ := Option.isSome_iff_exists.mp (h e rfl)
    simp only [drainStep]
    cases hout : (processEvent os nowIso acc.seen e).1.errText with
    | none => exact ⟨_, rfl⟩
    | some err =>
      dsimp only
      rw [handleFailure_eq mR rT dT e err r hr]
      exact ⟨_, rfl⟩

/-- The drain loop returns normally on a batch of events with convertible
retry counts. -/
theorem foldlM_drainStep_ok (os : StageOracles) (mR : Int) (rT dT nowIso : String)
    (items : List Item) :
    ∀ acc : DrainAcc,
      (∀ e, Item.obj e ∈ items → (retryCountOf e).isSome = true) →
      exceptOk (items.foldlM (drainStep os mR rT dT nowIso) acc) = true := by
  induction items with
  | nil => intro acc h; rfl
  | cons item rest ih =>
    intro acc h
    obtain ⟨acc1, hstep⟩ := drainStep_ok os mR rT dT nowIso acc item
      (fun e he => h e (he ▸ List.mem_cons_self _ _))
    rw [List.foldlM_cons, hstep]
    exact ih acc1 (fun e he => h e (List.mem_cons_of_mem _ he))

/-! ### Claim theorems -/

/-- C1: when Fetch Details or Persist raises on an event whose current
`retry_count` reads as `r` (with `r = 0` whenever the field is absent), the
orchestrator republishes the copy with `retry_count = r + 1` and `last_error`
set to the error text — to the retry topic when `r < maxRetries`, to the
dead-letter topic when `r ≥ maxRetries`.  In particular `r = maxRetries - 1`
goes to the retry topic carrying `retry_count = maxRetries`, and
`r = maxRetries` goes to the dead-letter topic. -/
theorem handleFailure_escalation (m : Int) (rT dT : String) (e : Event) (err : String)
    (r : Int) (hr : retryCountOf e = some r) :
    handleFailure m rT dT e err =
      .ok (if r < m then rT else dT,
           setKey (setKey e "retry_count" (.vInt (r + 1))) "last_error" (.vStr err))
    ∧ lookupField
        (setKey (setKey e "retry_count" (.vInt (r + 1))) "last_error" (.vStr err))
        "retry_count" = some (.vInt (r + 1))
    ∧ (lookupField e "retry_count" = none → r = 0)
    ∧ (r = m - 1 →
        handleFailure m rT dT e err =
          .ok (rT, setKey (setKey e "retry_count" (.vInt m)) "last_error" (.vStr err)))
    ∧ (r = m →
        handleFailure m rT dT e err =
          .ok (dT, setKey (setKey e "retry_count" (.vInt (m + 1))) "last_error" (.vStr err))) := by
  refine ⟨?_, ?_, ?_, ?_, ?_⟩
  · by_cases h : r < m <;> simp [handleFailure, hr, h]
  · rw [lookupField_setKey_ne _ _ _ _ (by decide), lookupField_setKey_self]
  · intro hnone
    unfold retryCountOf retryFieldExpr pyGet at hr
    rw [hnone] at hr
    simp [truthy, pyToInt] at hr
    omega
  · intro hrm
    subst hrm
    have hlt : m - 1 < m := by omega
    have hadd : m - 1 + 1 = m := by omega
    simp [handleFailure, hr, hlt, hadd]
  · intro hrm
    have hlt : ¬ (r < m) := by omega
    simp [handleFailure, hr, hlt, hrm]

/-- Witness for C1: an event with `retry_count = 2` under `maxRetries = 3`
is republished to the retry topic with `retry_count = 3`. -/
theorem handleFailure_escalation_witness :
    retryCountOf [("retry_count", PyVal.vInt 2)] = some 2 ∧
    handleFailure 3 "fitbit.notifications.retry" "fitbit.notifications.dlq"
        [("retry_count", PyVal.vInt 2)] "boom" =
      .ok ("fitbit.notifications.retry",
           [("retry_count", PyVal.vInt 3), ("last_error", PyVal.vStr "boom")]) := by
  refine ⟨rfl, ?_⟩
  have h := (handleFailure_escalation 3 "fitbit.notifications.retry"
      "fitbit.notifications.dlq" [("retry_count", PyVal.vInt 2)] "boom" 2 rfl).2.2.2.1 (by norm_num)
  exact h

/-- C3 fails as stated: for the event with `subscriptionId = "u1-sub"`,
`collectionType = "sleep"`, `date = "2026-02-10"` and no `ownerId`, the
computed key is NOT `"fitbit|u1-sub||sleep|2026-02-10"` — the empty
`ownerId` slot comes before the `subscriptionId` slot. -/
theorem dedupeKey_spec_example_false :
    dedupeKey [("subscriptionId", PyVal.vStr "u1-sub"),
               ("collectionType", PyVal.vStr "sleep"),
               ("date", PyVal.vStr "2026-02-10")]
      ≠ "fitbit|u1-sub||sleep|2026-02-10" := by decide

/-- C3 (amended): the dedupe key is the deterministic pipe-joined string of
`(provider, ownerId, subscriptionId, collectionType, date)` with missing
fields replaced by the empty string; for the event with
`subscriptionId = "u1-sub"`, `collectionType = "sleep"`,
`date = "2026-02-10"`, provider fixed to `"fitbit"` and empty `ownerId`, the
key is `"fitbit||u1-sub|sleep|2026-02-10"`. -/
theorem dedupeKey_parts_and_example :
    (∀ owner sub coll date : Option String,
      dedupeKey (mkFitbitEvent owner sub coll date) =
        "fitbit" ++ "|" ++ owner.getD "" ++ "|" ++ sub.getD "" ++ "|"
          ++ coll.getD "" ++ "|" ++ date.getD "")
    ∧ dedupeKey [("subscriptionId", PyVal.vStr "u1-sub"),
                 ("collectionType", PyVal.vStr "sleep"),
                 ("date", PyVal.vStr "2026-02-10")]
        = "fitbit||u1-sub|sleep|2026-02-10" := by
  constructor
  · intro owner sub coll date
    cases owner <;> cases sub <;> cases coll <;> cases date <;>
      simp [dedupeKey, mkFitbitEvent, optField, pyGet, lookupField, pyStr, joinPipe] <;>
      simp [← String.append_assoc] <;>
      simp [String.append_assoc]
  · rfl

/-- C4 fails as stated: an event whose `retry_count` holds the non-numeric
string `"abc"` makes Parse raise (`int("abc")` is a `ValueError`), instead of
returning a context. -/
theorem parseStage_raises_on_nonnumeric :
    parseStage "2026-02-10T00:00:00" [("retry_count", PyVal.vStr "abc")]
      = Except.error retryIntError := rfl

/-- C4 (amended): Parse wraps the event into a context with `received_at`
stamped, `retry_count` extracted (default 0) and provider tagged, and it never
raises, PROVIDED the `retry_count` value is convertible by `int(...)`; a falsy
`retry_count` (absent, `None`, `0`, `False`, empty string) always reads as 0;
Parse raises exactly when the conversion fails. -/
theorem parseStage_behaviour (nowIso : String) (e : Event) :
    (∀ r : Int, retryCountOf e = some r →
      parseStage nowIso e =
        .ok { event := e, received_at := nowIso ++ "Z", retry_count := r,
              provider := "fitbit", dedupe_key := none, is_duplicate := none })
    ∧ (retryCountOf e = none → parseStage nowIso e = Except.error retryIntError)
    ∧ (truthy (pyGet e "retry_count" (.vInt 0)) = false → retryCountOf e = some 0) := by
  refine ⟨?_, ?_, ?_⟩
  · intro r hr; simp [parseStage, hr]
  · intro hr; simp [parseStage, hr]
  · intro hfalsy
    unfold retryCountOf retryFieldExpr
    simp [hfalsy, pyToInt]

/-- Witness for C4 (amended): parsing an event with no `retry_count` yields a
context with `retry_count = 0`. -/
theorem parseStage_behaviour_witness :
    parseStage "2026-02-10T00:00:00" [("collectionType", PyVal.vStr "sleep")] =
      .ok { event := [("collectionType", PyVal.vStr "sleep")],
            received_at := "2026-02-10T00:00:00Z", retry_count := 0,
            provider := "fitbit", dedupe_key := none, is_duplicate := none } := by
  exact (parseStage_behaviour "2026-02-10T00:00:00"
    [("collectionType", PyVal.vStr "sleep")]).1 0 rfl

/-- C5 fails as stated: an event whose `retry_count` is the non-numeric string
`"abc"` makes the per-event handler itself raise (`int("abc")` inside
`_handle_failure`), so the failure escapes the drain loop instead of being
converted into retry/DLQ routing. -/
theorem drain_crash_on_bad_retry_count :
    exceptOk (drainTopic okOracles 3 "fitbit.notifications.retry"
        "fitbit.notifications.dlq" "2026-02-10T00:00:00" []
        [Item.obj [("retry_count", PyVal.vStr "abc")]]) = false := rfl

/-- C5 (amended): every error raised while processing an event is caught at
the per-event boundary and, PROVIDED the event's `retry_count` is convertible
by `int(...)`, converted into retry/dead-letter routing: the drain loop then
never propagates a per-event failure (first conjunct), and a failing event's
routing is exactly `_handle_failure`'s output (second conjunct).  When the
conversion fails, the handler itself raises and the failure escapes the
drain loop. -/
theorem drain_converts_failures :
    (∀ (os : StageOracles) (mR : Int) (rT dT nowIso : String) (seen : List String)
       (items : List Item),
      (∀ e, Item.obj e ∈ items → (retryCountOf e).isSome = true) →
      exceptOk (drainTopic os mR rT dT nowIso seen items) = true)
    ∧ (∀ (os : StageOracles) (mR : Int) (rT dT nowIso : String) (seen : List String)
        (e : Event) (out : Outcome) (seen1 : List String) (err t : String) (e' : Event),
        processEvent os nowIso seen e = (out, seen1) →
        out.errText = some err →
        handleFailure mR rT dT e err = .ok (t, e') →
        drainTopic os mR rT dT nowIso seen [.obj e]
          = .ok { processed := 1, seen := seen1, published := [(t, e')] }) := by
  constructor
  · intro os mR rT dT nowIso seen items h
    exact foldlM_drainStep_ok os mR rT dT nowIso items
      { processed := 0, seen := seen, published := [] } h
  · intro os mR rT dT nowIso seen e out seen1 err t e' hproc herr hhf
    simp only [drainTopic, List.foldlM_cons, List.foldlM_nil, drainStep]
    rw [hproc]
    dsimp only
    rw [herr]
    dsimp only
    rw [hhf]
    rfl

/-- Witness for C5 (amended): a batch holding one failing event with
`retry_count = 0` drains without escaping, republishing the updated copy to
the retry topic. -/
theorem drain_converts_failures_witness :
    drainTopic failFetchOracles 3 "fitbit.notifications.retry" "fitbit.notifications.dlq"
        "2026-02-10T00:00:00" [] [Item.obj [("subscriptionId", PyVal.vStr "u1-sub")]]
      = .ok { processed := 1, seen := ["fitbit||u1-sub||"],
              published := [("fitbit.notifications.retry",
                [("subscriptionId", PyVal.vStr "u1-sub"), ("retry_count", PyVal.vInt 1),
                 ("last_error", PyVal.vStr "boom")])] } := by
  exact drain_converts_failures.2 failFetchOracles 3 "fitbit.notifications.retry"
    "fitbit.notifications.dlq" "2026-02-10T00:00:00" []
    [("subscriptionId", PyVal.vStr "u1-sub")] (.fetchError "boom") ["fitbit||u1-sub||"]
    "boom" "fitbit.notifications.retry"
    [("subscriptionId", PyVal.vStr "u1-sub"), ("retry_count", PyVal.vInt 1),
     ("last_error", PyVal.vStr "boom")]
    rfl rfl rfl

/-- C6: `publish_many` on the in-memory transport returns the number of items
that are well-formed objects, enqueues exactly those in order (non-objects
silently skipped), and a subsequent full drain of the topic yields exactly
those objects in publish order; in particular
`publishMany(topic, [obj1, "not-an-object", obj2])` returns 2 and the drain
yields only `obj1` and `obj2`. -/
theorem publishMany_filters_and_drains (q : List Event) (items : List Item) (e1 e2 : Event) :
    (publishMany q items).1 = (objEvents items).length
    ∧ (publishMany q items).2 = q ++ objEvents items
    ∧ drainAll (publishMany [] items).2 1 = objEvents items
    ∧ publishMany [] [.obj e1, .nonObj (.vStr "not-an-object"), .obj e2] = (2, [e1, e2])
    ∧ drainAll (publishMany [] [.obj e1, .nonObj (.vStr "not-an-object"), .obj e2]).2 1
        = [e1, e2] := by
  refine ⟨?_, ?_, ?_, ?_, ?_⟩
  · rw [publishMany_eq]
  · rw [publishMany_eq]
  · rw [publishMany_eq]
    dsimp only
    rw [List.nil_append]
    exact drainAll_eq _ 1 le_rfl
  · rw [publishMany_eq]
    simp [objEvents_cons_obj, objEvents_cons_nonObj, objEvents_nil]
  · rw [publishMany_eq]
    dsimp only
    rw [List.nil_append]
    rw [drainAll_eq _ 1 le_rfl]
    simp [objEvents_cons_obj, objEvents_cons_nonObj, objEvents_nil]

/-- C8: on the in-memory transport under single-consumer use, after
`publish(topic, e)` the full drain by repeated `consume_batch` (any positive
batch size) returns the prior contents followed by `e` — FIFO publish order,
and `e` is returned exactly once more than it already occurred: no loss, no
duplication. -/
theorem inmemory_fifo_exactly_once (q : List Event) (e : Event) (b : Int) (hb : 1 ≤ b) :
    drainAll (publish q e) b = q ++ [e]
    ∧ List.count e (drainAll (publish q e) b) = List.count e q + 1
    ∧ (e ∉ q → List.count e (drainAll (publish q e) b) = 1) := by
  have hd : drainAll (publish q e) b = q ++ [e] := drainAll_eq (publish q e) b hb
  refine ⟨hd, ?_, ?_⟩
  · rw [hd]
    simp [List.count_append]
  · intro hne
    rw [hd]
    simp [List.count_append, List.count_eq_zero.mpr hne]

/-- Witness for C8: a fresh event published onto the empty topic is drained
back exactly once. -/
theorem inmemory_fifo_exactly_once_witness :
    drainAll (publish [] [("collectionType", PyVal.vStr "sleep")]) 1
        = [[("collectionType", PyVal.vStr "sleep")]]
    ∧ List.count [("collectionType", PyVal.vStr "sleep")]
        (drainAll (publish [] [("collectionType", PyVal.vStr "sleep")]) 1) = 1 := by
  have h := inmemory_fifo_exactly_once [] [("collectionType", PyVal.vStr "sleep")] 1 le_rfl
  exact ⟨h.1, h.2.2 (by simp)⟩

/-- C9: `is_valid_verification_code(code)` returns true iff the code is
non-empty and a member of the configured comma-separated set of accepted
codes (a missing code is rejected); with configured codes `"abc,xyz"`,
`"abc"` is accepted and `"qqq"` is rejected. -/
theorem verification_code_spec (raw c : String) :
    (isValidVerificationCode raw (some c) = true ↔ c ≠ "" ∧ c ∈ parseVerifyCodes raw)
    ∧ isValidVerificationCode raw none = false
    ∧ isValidVerificationCode "abc,xyz" (some "abc") = true
    ∧ isValidVerificationCode "abc,xyz" (some "qqq") = false := by
  refine ⟨?_, rfl, rfl, rfl⟩
  unfold isValidVerificationCode
  by_cases hc : c = ""
  · simp [hc]
  · simp [hc, List.elem_iff]

/-- C10: the receive-and-delete (SQS) transport's consume request clamps the
requested message count into `[1, 10]` and the wait time into `[0, 20]`
seconds, for every requested `max_messages` and `wait_seconds`. -/
theorem sqs_clamps_batch_and_wait (m w : Int) :
    1 ≤ (sqsConsumeRequest m w).1 ∧ (sqsConsumeRequest m w).1 ≤ 10
    ∧ 0 ≤ (sqsConsumeRequest m w).2 ∧ (sqsConsumeRequest m w).2 ≤ 20
    ∧ (sqsConsumeRequest m w).1 = min 10 (max 1 m)
    ∧ (sqsConsumeRequest m w).2 = min 20 (max 0 w) := by
  unfold sqsConsumeRequest
  refine ⟨?_, ?_, ?_, ?_, ?_, ?_⟩ <;> (dsimp only; omega)

/-- C2: an event that fails in Fetch Details or Persist had its dedupe key
inserted by the Dedupe stage before the failure, and the copy republished by
`_handle_failure` keeps that key (only `retry_count` and `last_error`
change).  Hence, when the same worker process later dequeues the retried
copy — the seen set having only grown in between, which the last conjunct
shows the drain loop guarantees — the Dedupe stage marks it a duplicate and
the pipeline drops it with no Fetch Details and no Persist call (the
conclusion holds for EVERY stage oracle, so neither stage is consulted). -/
theorem retried_event_suppressed
    (os : StageOracles) (nowIso : String) (seen : List String) (e : Event)
    (out : Outcome) (seen1 : List String) (err msg : String)
    (mR : Int) (rT dT t : String) (e' : Event)
    (hproc : processEvent os nowIso seen e = (out, seen1))
    (hfail : out = .fetchError err ∨ out = .persistError err)
    (hhf : handleFailure mR rT dT e msg = .ok (t, e')) :
    dedupeKey e' = dedupeKey e
    ∧ (∀ (os2 : StageOracles) (now2 : String) (seen2 : List String),
        (∀ k, k ∈ seen1 → k ∈ seen2) →
        processEvent os2 now2 seen2 e' = (.duplicateSkipped (dedupeKey e), seen2))
    ∧ (∀ (os3 : StageOracles) (mR3 : Int) (rT3 dT3 now3 : String)
        (items : List Item) (acc : DrainAcc),
        items.foldlM (drainStep os3 mR3 rT3 dT3 now3)
            { processed := 0, seen := seen1, published := [] } = .ok acc →
        ∀ k, k ∈ seen1 → k ∈ acc.seen) := by
  have hkey : dedupeKey e' = dedupeKey e :=
    handleFailure_dedupeKey mR rT dT e msg t e' hhf
  have hmem : dedupeKey e ∈ seen1 :=
    processEvent_err_mem os nowIso seen e out seen1 err hproc hfail
  obtain ⟨r', hr'⟩ := handleFailure_retryCount mR rT dT e msg t e' hhf
  refine ⟨hkey, ?_, ?_⟩
  · intro os2 now2 seen2 hsub
    have hmem2 : dedupeKey e' ∈ seen2 := hkey ▸ hsub _ hmem
    rw [processEvent_dup os2 now2 seen2 e' r' hr' hmem2, hkey]
  · intro os3 mR3 rT3 dT3 now3 items acc hfold k hk
    exact drainTopic_seen_mono os3 mR3 rT3 dT3 now3 items _ acc hfold k hk

/-- Witness for C2: the event `{"subscriptionId": "u1-sub"}` fails its fetch,
is republished by the handler, and the retried copy is dropped as a duplicate
by a later run of the same process — under oracles that would now succeed. -/
theorem retried_event_suppressed_witness :
    processEvent okOracles "2026-02-11T00:00:00" ["fitbit||u1-sub||"]
        [("subscriptionId", PyVal.vStr "u1-sub"), ("retry_count", PyVal.vInt 1),
         ("last_error", PyVal.vStr "boom")]
      = (.duplicateSkipped "fitbit||u1-sub||", ["fitbit||u1-sub||"]) := by
  have h := (retried_event_suppressed failFetchOracles "2026-02-10T00:00:00" []
      [("subscriptionId", PyVal.vStr "u1-sub")] (.fetchError "boom") ["fitbit||u1-sub||"]
      "boom" "boom" 3 "fitbit.notifications.retry" "fitbit.notifications.dlq"
      "fitbit.notifications.retry"
      [("subscriptionId", PyVal.vStr "u1-sub"), ("retry_count", PyVal.vInt 1),
       ("last_error", PyVal.vStr "boom")]
      rfl (Or.inl rfl) rfl).2.1 okOracles "2026-02-11T00:00:00" ["fitbit||u1-sub||"]
      (fun k hk => hk)
  exact h

/-- C7: two events with the same `(provider, ownerId, subscriptionId,
collectionType, date)` processed by the same worker process: the first is not
marked duplicate and its key is inserted into the seen set; the second is
marked duplicate, the seen set is unchanged (no re-insertion), and its
pipeline terminates with no Fetch Details and no Persist call (the conclusion
holds for EVERY stage oracle, so neither stage is consulted). -/
theorem dedupe_second_suppressed
    (os1 : StageOracles) (n1 : String) (seen : List String)
    (e1 e2 : Event) (r1 r2 : Int)
    (hk : dedupeKey e2 = dedupeKey e1)
    (hnew : dedupeKey e1 ∉ seen)
    (h1 : retryCountOf e1 = some r1) (h2 : retryCountOf e2 = some r2) :
    (processEvent os1 n1 seen e1).2 = dedupeKey e1 :: seen
    ∧ (∀ k, (processEvent os1 n1 seen e1).1 ≠ .duplicateSkipped k)
    ∧ (∀ (os2 : StageOracles) (n2 : String),
        processEvent os2 n2 ((processEvent os1 n1 seen e1).2) e2
          = (.duplicateSkipped (dedupeKey e2), (processEvent os1 n1 seen e1).2)) := by
  have hshape := processEvent_new os1 n1 seen e1 r1 h1 hnew
  have hseen : (processEvent os1 n1 seen e1).2 = dedupeKey e1 :: seen := by
    rcases hshape with ⟨err, hp⟩ | ⟨err, hp⟩ | hp <;> rw [hp]
  have hnotdup : ∀ k, (processEvent os1 n1 seen e1).1 ≠ .duplicateSkipped k := by
    intro k hcon
    rcases hshape with ⟨err, hp⟩ | ⟨err, hp⟩ | hp <;> (rw [hp] at hcon; cases hcon)
  refine ⟨hseen, hnotdup, ?_⟩
  intro os2 n2
  have hmem : dedupeKey e2 ∈ (processEvent os1 n1 seen e1).2 := by
    rw [hseen, hk]
    exact List.mem_cons_self _ _
  exact processEvent_dup os2 n2 _ e2 r2 h2 hmem

/-- Witness for C7: the same sleep event processed twice in one process —
the first run inserts its key and completes, the second is suppressed. -/
theorem dedupe_second_suppressed_witness :
    (processEvent okOracles "2026-02-10T00:00:00" []
        [("subscriptionId", PyVal.vStr "u1-sub")]).2 = ["fitbit||u1-sub||"]
    ∧ processEvent okOracles "2026-02-10T00:01:00" ["fitbit||u1-sub||"]
        [("subscriptionId", PyVal.vStr "u1-sub")]
      = (.duplicateSkipped "fitbit||u1-sub||", ["fitbit||u1-sub||"]) := by
  have h := dedupe_second_suppressed okOracles "2026-02-10T00:00:00" []
    [("subscriptionId", PyVal.vStr "u1-sub")] [("subscriptionId", PyVal.vStr "u1-sub")]
    0 0 rfl (by simp) rfl rfl
  exact ⟨h.1, h.2.2 okOracles "2026-02-10T00:01:00"⟩

end HealthService
